import Mathlib

/-!
Shallow embedding of the geometry and interaction core of the
modern-react-timeline-component repository.

Conventions of the embedding:
  * JavaScript numbers are modelled as exact rationals (ℚ); instants are
    milliseconds since the epoch, as dayjs diff/valueOf produce them, so one
    minute is 60000 and one second is 1000.
  * Each definition is translated from a named function of the source;
    the source file and line range are cited in its doc comment.
  * `Math.max(a, Math.min(b, x))`, the clamping idiom used throughout the
    source, is `clampQ a b x`.
-/

/-- Clamping idiom of the source, written everywhere as
    Math.max(lo, Math.min(hi, x)). -/
def clampQ (lo hi x : ℚ) : ℚ := max lo (min hi x)

/-- Time-to-pixel map, the pure core of getItemPosition
    (src/components/TimelineGroup.tsx lines 46-62): the item ratio
    (t - start) / (end - start) scaled by the timeline width. -/
def timeToPixel (t tStart tEnd w : ℚ) : ℚ :=
  ((t - tStart) / (tEnd - tStart)) * w

/-- Pixel-to-time map, the pure core of getTimeFromPosition
    (unnamed component source, lines 431-448): timeStart plus
    (px / timelineWidth) * totalDuration. -/
def pixelToTime (px tStart tEnd w : ℚ) : ℚ :=
  tStart + (px / w) * (tEnd - tStart)

/-- Full getTimeFromPosition (unnamed component source, lines 431-448):
    the raw clientX is first turned into a content-relative pixel by
    subtracting rect.left and groupBarWidth and adding scrollLeft. -/
def getTimeFromPosition (tStart tEnd timelineWidth groupBarWidth rectLeft scrollLeft x : ℚ) : ℚ :=
  pixelToTime (x - rectLeft + scrollLeft - groupBarWidth) tStart tEnd timelineWidth

/-- Zoom factor together with the horizontal scroll offset of the content
    pane: the two pieces of state handleZoomIn / handleZoomOut read and
    write (unnamed component source, lines 193, 206-286). -/
structure ZoomScroll where
  zoom : ℚ
  scroll : ℚ
  deriving DecidableEq

/-- handleZoomIn (unnamed component source, lines 206-244): no-op when
    zoom >= 8, otherwise doubles the factor and recomputes the scroll
    offset so that the ratio at the old viewport center is preserved,
    clamped to [0, max 0 (newWidth - containerWidth)]. -/
def handleZoomIn (baseWidth c : ℚ) (st : ZoomScroll) : ZoomScroll :=
  if 8 ≤ st.zoom then st
  else
    let currentCenter := st.scroll + c / 2
    let currentTimelineWidth := baseWidth * st.zoom
    let centerRatio := currentCenter / currentTimelineWidth
    let newZoom := st.zoom * 2
    let newTimelineWidth := baseWidth * newZoom
    let newCenterPosition := centerRatio * newTimelineWidth
    let newScrollLeft := newCenterPosition - c / 2
    let maxScroll := max 0 (newTimelineWidth - c)
    let clampedScroll := max 0 (min maxScroll newScrollLeft)
    ⟨newZoom, clampedScroll⟩

/-- handleZoomOut (unnamed component source, lines 246-286): no-op when
    zoom <= 0.25, otherwise halves the factor, with the same
    anchor-preserving scroll recomputation. -/
def handleZoomOut (baseWidth c : ℚ) (st : ZoomScroll) : ZoomScroll :=
  if st.zoom ≤ 1/4 then st
  else
    let currentCenter := st.scroll + c / 2
    let currentTimelineWidth := baseWidth * st.zoom
    let centerRatio := currentCenter / currentTimelineWidth
    let newZoom := st.zoom * (1/2)
    let newTimelineWidth := baseWidth * newZoom
    let newCenterPosition := centerRatio * newTimelineWidth
    let newScrollLeft := newCenterPosition - c / 2
    let maxScroll := max 0 (newTimelineWidth - c)
    let clampedScroll := max 0 (min maxScroll newScrollLeft)
    ⟨newZoom, clampedScroll⟩

/-- One zoom button press. -/
inductive ZoomOp where
  | zIn
  | zOut
  deriving DecidableEq

/-- Action of one zoom press on the factor alone, exactly the guard and
    update of handleZoomIn / handleZoomOut (unnamed component source,
    lines 206-207, 222 and 246-247, 262). -/
def applyZoomOp : ZoomOp → ℚ → ℚ
  | ZoomOp.zIn, z => if 8 ≤ z then z else z * 2
  | ZoomOp.zOut, z => if z ≤ 1/4 then z else z * (1/2)

/-- Factor after a finite sequence of zoom presses. -/
def applyZoomOps (ops : List ZoomOp) (z : ℚ) : ℚ :=
  ops.foldl (fun a op => applyZoomOp op a) z

/-- Factors reachable from the initial factor 1 by doubling and halving
    inside the guards: the six powers of two between 1/4 and 8. -/
def reachableZoom (z : ℚ) : Prop :=
  z = 1/4 ∨ z = 1/2 ∨ z = 1 ∨ z = 2 ∨ z = 4 ∨ z = 8

/-- Resize-left branch of handleMouseMove
    (src/components/TimelineItem.tsx lines 159-163): the proposed
    (start, end) pair passed to onResize.  newTime is kept when it is
    strictly before end minus one minute, else clamped to end minus one
    minute; end is passed through unchanged.  Times in milliseconds. -/
def resizeLeft (newTime itemEnd : ℚ) : ℚ × ℚ :=
  (if newTime < itemEnd - 60000 then newTime else itemEnd - 60000, itemEnd)

/-- Resize-right branch of handleMouseMove
    (src/components/TimelineItem.tsx lines 164-168): start is passed
    through unchanged; newTime is kept when it is strictly after start
    plus one minute, else clamped to start plus one minute. -/
def resizeRight (newTime itemStart : ℚ) : ℚ × ℚ :=
  (itemStart, if itemStart + 60000 < newTime then newTime else itemStart + 60000)

/-- Calendar units the axis tiers choose from. -/
inductive CalUnit where
  | hour
  | day
  | month
  | year
  deriving DecidableEq

/-- Coarseness of a calendar unit: smaller is finer. -/
def unitRank : CalUnit → Nat
  | CalUnit.hour => 0
  | CalUnit.day => 1
  | CalUnit.month => 2
  | CalUnit.year => 3

/-- Major-tier unit selection of getMajorIntervals
    (src/components/TimelineHeader.tsx lines 25-41): day at zoom >= 4,
    month at zoom >= 2, month again at zoom >= 0.5, year below. -/
def majorUnit (zoom : ℚ) : CalUnit :=
  if 4 ≤ zoom then CalUnit.day
  else if 2 ≤ zoom then CalUnit.month
  else if 1/2 ≤ zoom then CalUnit.month
  else CalUnit.year

/-- Minor-tier unit selection of getMinorIntervals
    (src/components/TimelineHeader.tsx lines 86-109): hour at zoom >= 4,
    day at zoom >= 2, day again at zoom >= 0.5, month below. -/
def minorUnit (zoom : ℚ) : CalUnit :=
  if 4 ≤ zoom then CalUnit.hour
  else if 2 ≤ zoom then CalUnit.day
  else if 1/2 ≤ zoom then CalUnit.day
  else CalUnit.month

/-- Which edge a resize session grips. -/
inductive Edge where
  | left
  | right
  deriving DecidableEq

/-- Per-item interaction flags of TimelineItemComponent
    (src/components/TimelineItem.tsx lines 43-44): the isDragging and
    isResizing useState cells. -/
structure ItemInteraction where
  isDragging : Bool
  isResizing : Option Edge
  deriving DecidableEq

/-- handleMouseDown (src/components/TimelineItem.tsx lines 130-149):
    sets isResizing to left when the pointer is within 8 px of the left
    edge and onResize is present, to right when within 8 px of the right
    edge and onResize is present, else sets isDragging when onMove is
    present; the current flags are never consulted. -/
def handleMouseDown (relativeX width : ℚ) (hasResize hasMove : Bool)
    (st : ItemInteraction) : ItemInteraction :=
  if relativeX < 8 ∧ hasResize = true then { st with isResizing := some Edge.left }
  else if width - 8 < relativeX ∧ hasResize = true then { st with isResizing := some Edge.right }
  else if hasMove = true then { st with isDragging := true }
  else st

/-- The session a pointer-move is processed as. -/
inductive ActiveSession where
  | dragging
  | resizing (e : Edge)
  | idle
  deriving DecidableEq

/-- Branch selection of handleMouseMove
    (src/components/TimelineItem.tsx lines 151-171): the drag branch is
    tested first (isDragging and onMove), then the resize branch
    (isResizing non-null and onResize), else nothing happens. -/
def effectiveSession (hasMove hasResize : Bool) (st : ItemInteraction) : ActiveSession :=
  if st.isDragging = true ∧ hasMove = true then ActiveSession.dragging
  else
    match st.isResizing with
    | some e => if hasResize = true then ActiveSession.resizing e else ActiveSession.idle
    | none => ActiveSession.idle

/-- scrollToGroup (unnamed component source, lines 468-510), with the
    group list abstracted to its id list and groupHeight fixed at 60 as
    in the source.  Returns none for the no-op paths (unknown id, group
    already fully visible) and some target for the scroll it applies. -/
def scrollToGroup (groupIds : List String) (groupId : String) (sticky : Bool)
    (containerHeight scrollTop scrollHeight : ℚ) : Option ℚ :=
  match groupIds.findIdx? (fun g => g = groupId) with
  | none => none
  | some groupIndex =>
    let headerOffset : ℚ := if sticky then 0 else 60
    let groupTop : ℚ := (groupIndex : ℚ) * 60 + headerOffset
    let groupBottom : ℚ := groupTop + 60
    if groupTop ≥ scrollTop ∧ groupBottom ≤ scrollTop + containerHeight then none
    else
      let optimalScrollTop := groupTop - containerHeight / 2 + 60 / 2
      let maxScrollTop := scrollHeight - containerHeight
      some (max 0 (min maxScrollTop optimalScrollTop))

/-- JavaScript a || b over possibly-missing strings: b when a is
    undefined or the empty string. -/
def jsOr (a b : Option String) : Option String :=
  match a with
  | some s => if s = "" then b else some s
  | none => b

/-- getGroupFromPosition (unnamed component source, lines 450-465):
    floor((y - rect.top + scrollTop - headerOffset) / 60) indexes the
    group list, falling back to the first group's id via the JavaScript
    or-else idiom. -/
def getGroupFromPosition (groupIds : List String) (sticky : Bool)
    (y rectTop scrollTop : ℚ) : Option String :=
  let headerOffset : ℚ := if sticky then 0 else 60
  let relativeY := y - rectTop + scrollTop - headerOffset
  let groupIndex : ℤ := ⌊relativeY / 60⌋
  jsOr (if 0 ≤ groupIndex then groupIds.get? groupIndex.toNat else none) groupIds.head?

/-- Closed form of handleZoomIn below the zoom cap. -/
lemma handleZoomIn_eq (baseWidth c zoom s : ℚ) (h8 : ¬ 8 ≤ zoom) :
    handleZoomIn baseWidth c ⟨zoom, s⟩ =
      ⟨zoom * 2,
        max 0 (min (max 0 (baseWidth * (zoom * 2) - c))
          (((s + c / 2) / (baseWidth * zoom)) * (baseWidth * (zoom * 2)) - c / 2))⟩ := by
  unfold handleZoomIn
  split
  · next h => exact absurd h h8
  · rfl

/-- Closed form of handleZoomOut above the zoom floor. -/
lemma handleZoomOut_eq (baseWidth c zoom s : ℚ) (h4 : ¬ zoom ≤ 1/4) :
    handleZoomOut baseWidth c ⟨zoom, s⟩ =
      ⟨zoom * (1/2),
        max 0 (min (max 0 (baseWidth * (zoom * (1/2)) - c))
          (((s + c / 2) / (baseWidth * zoom)) * (baseWidth * (zoom * (1/2))) - c / 2))⟩ := by
  unfold handleZoomOut
  split
  · next h => exact absurd h h4
  · rfl

/-- Guarded no-op of handleZoomIn at or above the cap. -/
lemma handleZoomIn_noop (baseWidth c zoom s : ℚ) (h8 : 8 ≤ zoom) :
    handleZoomIn baseWidth c ⟨zoom, s⟩ = ⟨zoom, s⟩ := by
  unfold handleZoomIn
  split
  · rfl
  · next h => exact absurd h8 h

/-- Guarded no-op of handleZoomOut at or below the floor. -/
lemma handleZoomOut_noop (baseWidth c zoom s : ℚ) (h4 : zoom ≤ 1/4) :
    handleZoomOut baseWidth c ⟨zoom, s⟩ = ⟨zoom, s⟩ := by
  unfold handleZoomOut
  split
  · rfl
  · next h => exact absurd h4 h

/-- The zoom component of handleZoomIn is the pure factor update. -/
lemma handleZoomIn_zoom (baseWidth c z s : ℚ) :
    (handleZoomIn baseWidth c ⟨z, s⟩).zoom = applyZoomOp ZoomOp.zIn z := by
  by_cases h : 8 ≤ z
  · rw [handleZoomIn_noop baseWidth c z s h]
    show z = if 8 ≤ z then z else z * 2
    rw [if_pos h]
  · rw [handleZoomIn_eq baseWidth c z s h]
    show z * 2 = if 8 ≤ z then z else z * 2
    rw [if_neg h]

/-- The zoom component of handleZoomOut is the pure factor update. -/
lemma handleZoomOut_zoom (baseWidth c z s : ℚ) :
    (handleZoomOut baseWidth c ⟨z, s⟩).zoom = applyZoomOp ZoomOp.zOut z := by
  by_cases h : z ≤ 1/4
  · rw [handleZoomOut_noop baseWidth c z s h]
    show z = if z ≤ 1/4 then z else z * (1/2)
    rw [if_pos h]
  · rw [handleZoomOut_eq baseWidth c z s h]
    show z * (1/2) = if z ≤ 1/4 then z else z * (1/2)
    rw [if_neg h]

/-- One zoom press keeps the factor among the reachable powers of two. -/
lemma reachableZoom_step (op : ZoomOp) (z : ℚ) (h : reachableZoom z) :
    reachableZoom (applyZoomOp op z) := by
  cases op <;> rcases h with h | h | h | h | h | h <;> subst h <;>
    norm_num [applyZoomOp, reachableZoom]

/-- Any sequence of zoom presses keeps the factor reachable. -/
lemma reachableZoom_fold (ops : List ZoomOp) (z : ℚ) (h : reachableZoom z) :
    reachableZoom (applyZoomOps ops z) := by
  induction ops generalizing z with
  | nil => exact h
  | cons op rest ih => exact ih _ (reachableZoom_step op z h)

/-- C2: composing the time-to-pixel map with the inverse pixel-to-time map
    (the pure core of getTimeFromPosition) returns the original instant
    within 1-second (1000 ms) tolerance, for every instant inside the
    range and every width in [1, 100000]; over exact rationals the
    round trip is in fact exact. -/
theorem pixel_time_round_trip (t tStart tEnd w : ℚ)
    (hse : tStart < tEnd) (hw1 : 1 ≤ w) (hw2 : w ≤ 100000)
    (h1 : tStart ≤ t) (h2 : t ≤ tEnd) :
    |pixelToTime (timeToPixel t tStart tEnd w) tStart tEnd w - t| ≤ 1000 := by
  have hd : tEnd - tStart ≠ 0 := sub_ne_zero.mpr (ne_of_gt hse)
  have hw : w ≠ 0 := by positivity
  have hexact : pixelToTime (timeToPixel t tStart tEnd w) tStart tEnd w = t := by
    unfold pixelToTime timeToPixel
    field_simp
    ring
  rw [hexact]
  simp

/-- Witness for C2 at t = 500 inside [0, 1000] with width 700. -/
theorem pixel_time_round_trip_witness :
    |pixelToTime (timeToPixel 500 0 1000 700) 0 1000 700 - 500| ≤ 1000 :=
  pixel_time_round_trip 500 0 1000 700 (by norm_num) (by norm_num) (by norm_num)
    (by norm_num) (by norm_num)

/-- C3: on a resize-left pointer-move the emitted start is the pointer's
    pixel-to-time image when strictly before end minus one minute and is
    end minus one minute otherwise, with the emitted end unchanged;
    resize-right is symmetric with start plus one minute; in both
    directions the proposed duration is at least one minute (60000 ms). -/
theorem resize_min_duration (px tStart tEnd w itemStart itemEnd : ℚ) :
    (resizeLeft (pixelToTime px tStart tEnd w) itemEnd).1 =
      (if pixelToTime px tStart tEnd w < itemEnd - 60000
        then pixelToTime px tStart tEnd w else itemEnd - 60000) ∧
    (resizeLeft (pixelToTime px tStart tEnd w) itemEnd).2 = itemEnd ∧
    60000 ≤ (resizeLeft (pixelToTime px tStart tEnd w) itemEnd).2 -
      (resizeLeft (pixelToTime px tStart tEnd w) itemEnd).1 ∧
    (resizeRight (pixelToTime px tStart tEnd w) itemStart).1 = itemStart ∧
    (resizeRight (pixelToTime px tStart tEnd w) itemStart).2 =
      (if itemStart + 60000 < pixelToTime px tStart tEnd w
        then pixelToTime px tStart tEnd w else itemStart + 60000) ∧
    60000 ≤ (resizeRight (pixelToTime px tStart tEnd w) itemStart).2 -
      (resizeRight (pixelToTime px tStart tEnd w) itemStart).1 := by
  refine ⟨rfl, rfl, ?_, rfl, rfl, ?_⟩
  · unfold resizeLeft
    dsimp only
    split
    · next h => linarith
    · next h => linarith
  · unfold resizeRight
    dsimp only
    split
    · next h => linarith
    · next h => linarith

/-- C1: for a zoomIn below the cap with container width c, scroll offset s
    and timeline width W = baseWidth * zoom, the applied scroll offset is
    clamp(((s + c/2) / W) * (2W) - c/2, 0, max 0 (2W - c)), and whenever
    that clamp is not binding the instant at the old viewport-center pixel
    s + c/2 is exactly the instant at the new viewport center;
    symmetrically for zoomOut with new width W/2. -/
theorem zoom_recenter_anchor (baseWidth zoom s c tStart tEnd : ℚ)
    (hb : 0 < baseWidth) (hz : 0 < zoom) :
    (zoom < 8 →
      (handleZoomIn baseWidth c ⟨zoom, s⟩).scroll =
        clampQ 0 (max 0 (2 * (baseWidth * zoom) - c))
          (((s + c / 2) / (baseWidth * zoom)) * (2 * (baseWidth * zoom)) - c / 2)) ∧
    (zoom < 8 →
      0 ≤ ((s + c / 2) / (baseWidth * zoom)) * (2 * (baseWidth * zoom)) - c / 2 →
      ((s + c / 2) / (baseWidth * zoom)) * (2 * (baseWidth * zoom)) - c / 2 ≤
        max 0 (2 * (baseWidth * zoom) - c) →
      pixelToTime ((handleZoomIn baseWidth c ⟨zoom, s⟩).scroll + c / 2) tStart tEnd
          (2 * (baseWidth * zoom)) =
        pixelToTime (s + c / 2) tStart tEnd (baseWidth * zoom)) ∧
    (1/4 < zoom →
      (handleZoomOut baseWidth c ⟨zoom, s⟩).scroll =
        clampQ 0 (max 0 (baseWidth * zoom / 2 - c))
          (((s + c / 2) / (baseWidth * zoom)) * (baseWidth * zoom / 2) - c / 2)) ∧
    (1/4 < zoom →
      0 ≤ ((s + c / 2) / (baseWidth * zoom)) * (baseWidth * zoom / 2) - c / 2 →
      ((s + c / 2) / (baseWidth * zoom)) * (baseWidth * zoom / 2) - c / 2 ≤
        max 0 (baseWidth * zoom / 2 - c) →
      pixelToTime ((handleZoomOut baseWidth c ⟨zoom, s⟩).scroll + c / 2) tStart tEnd
          (baseWidth * zoom / 2) =
        pixelToTime (s + c / 2) tStart tEnd (baseWidth * zoom)) := by
  have hW : baseWidth * zoom ≠ 0 := ne_of_gt (mul_pos hb hz)
  have e2 : baseWidth * (zoom * 2) = 2 * (baseWidth * zoom) := by ring
  have eh : baseWidth * (zoom * (1/2)) = baseWidth * zoom / 2 := by ring
  refine ⟨fun h8 => ?_, fun h8 hlo hhi => ?_, fun h4 => ?_, fun h4 hlo hhi => ?_⟩
  · rw [handleZoomIn_eq baseWidth c zoom s (not_le.mpr h8)]
    dsimp only
    rw [e2]
    rfl
  · rw [handleZoomIn_eq baseWidth c zoom s (not_le.mpr h8)]
    dsimp only
    rw [e2, min_eq_right hhi, max_eq_right hlo]
    unfold pixelToTime
    have hq : (((s + c / 2) / (baseWidth * zoom)) * (2 * (baseWidth * zoom)) - c / 2 + c / 2) /
        (2 * (baseWidth * zoom)) = (s + c / 2) / (baseWidth * zoom) := by
      field_simp
    rw [hq]
  · rw [handleZoomOut_eq baseWidth c zoom s (not_le.mpr h4)]
    dsimp only
    rw [eh]
    rfl
  · rw [handleZoomOut_eq baseWidth c zoom s (not_le.mpr h4)]
    dsimp only
    rw [eh, min_eq_right hhi, max_eq_right hlo]
    unfold pixelToTime
    have hq : (((s + c / 2) / (baseWidth * zoom)) * (baseWidth * zoom / 2) - c / 2 + c / 2) /
        (baseWidth * zoom / 2) = (s + c / 2) / (baseWidth * zoom) := by
      field_simp
      ring
    rw [hq]

/-- Witness for C1: zoomIn from factor 1 at scroll 100 in a 700 px
    timeline with an 800 px container. -/
theorem zoom_recenter_anchor_witness :
    (handleZoomIn 700 800 ⟨1, 100⟩).scroll =
      clampQ 0 (max 0 (2 * (700 * 1) - 800))
        (((100 + 800 / 2) / (700 * 1)) * (2 * (700 * 1)) - 800 / 2) :=
  (zoom_recenter_anchor 700 1 100 800 0 1000 (by norm_num) (by norm_num)).1 (by norm_num)

/-- C4: the axis tier selection is the four-band step function of the
    zoom factor, inclusive on the lower bounds, and in every band the
    minor unit is strictly finer than the major unit. -/
theorem axis_tier_hierarchy (z : ℚ) :
    unitRank (minorUnit z) < unitRank (majorUnit z) ∧
    (4 ≤ z → majorUnit z = CalUnit.day ∧ minorUnit z = CalUnit.hour) ∧
    (2 ≤ z ∧ z < 4 → majorUnit z = CalUnit.month ∧ minorUnit z = CalUnit.day) ∧
    (1/2 ≤ z ∧ z < 2 → majorUnit z = CalUnit.month ∧ minorUnit z = CalUnit.day) ∧
    (z < 1/2 → majorUnit z = CalUnit.year ∧ minorUnit z = CalUnit.month) := by
  refine ⟨?_, ?_, ?_, ?_, ?_⟩
  · unfold majorUnit minorUnit
    split_ifs <;> decide
  · intro h4
    unfold majorUnit minorUnit
    rw [if_pos h4, if_pos h4]
    exact ⟨rfl, rfl⟩
  · rintro ⟨h2, h4⟩
    unfold majorUnit minorUnit
    rw [if_neg (by linarith), if_pos h2, if_neg (by linarith), if_pos h2]
    exact ⟨rfl, rfl⟩
  · rintro ⟨hh, h2⟩
    unfold majorUnit minorUnit
    rw [if_neg (by linarith), if_neg (by linarith), if_pos hh,
        if_neg (by linarith), if_neg (by linarith), if_pos hh]
    exact ⟨rfl, rfl⟩
  · intro hh
    unfold majorUnit minorUnit
    rw [if_neg (by linarith), if_neg (by linarith), if_neg (by linarith),
        if_neg (by linarith), if_neg (by linarith), if_neg (by linarith)]
    exact ⟨rfl, rfl⟩

/-- C5: the zoom handlers update the factor exactly as the guarded
    doubling and halving, and starting from the initial factor 1 every
    finite sequence of zoomIn and zoomOut presses keeps the factor
    within [1/4, 8]. -/
theorem zoom_factor_bounded (ops : List ZoomOp) (baseWidth c s z : ℚ) :
    (handleZoomIn baseWidth c ⟨z, s⟩).zoom = applyZoomOp ZoomOp.zIn z ∧
    (handleZoomOut baseWidth c ⟨z, s⟩).zoom = applyZoomOp ZoomOp.zOut z ∧
    1/4 ≤ applyZoomOps ops 1 ∧ applyZoomOps ops 1 ≤ 8 := by
  have h := reachableZoom_fold ops 1 (by norm_num [reachableZoom])
  refine ⟨handleZoomIn_zoom baseWidth c z s, handleZoomOut_zoom baseWidth c z s, ?_, ?_⟩
  · rcases h with h | h | h | h | h | h <;> rw [h] <;> norm_num
  · rcases h with h | h | h | h | h | h <;> rw [h] <;> norm_num

/-- C6 counterexample: zoomIn from factor 1, scroll 0, with
    baseWidth = containerWidth = 800, recenters to scroll 400, not 0. -/
theorem zoom_origin_scroll_counterexample :
    (handleZoomIn 800 800 ⟨1, 0⟩).scroll = 400 ∧
    (handleZoomIn 800 800 ⟨1, 0⟩).scroll ≠ 0 := by
  have h := handleZoomIn_eq 800 800 1 0 (by norm_num)
  rw [h]
  dsimp only
  norm_num [max_def, min_def]

/-- C6 amended: a zoomIn performed at scroll offset 0 (factor below 8)
    recenters to min (max 0 (2W - c)) (c/2), which is never negative but
    is 0 only when the doubled timeline is no wider than the container. -/
theorem zoom_origin_scroll (baseWidth zoom c : ℚ)
    (hb : 0 < baseWidth) (hz : 0 < zoom) (h8 : zoom < 8) (hc : 0 ≤ c) :
    (handleZoomIn baseWidth c ⟨zoom, 0⟩).scroll =
      min (max 0 (2 * (baseWidth * zoom) - c)) (c / 2) ∧
    0 ≤ (handleZoomIn baseWidth c ⟨zoom, 0⟩).scroll := by
  have hW : baseWidth * zoom ≠ 0 := ne_of_gt (mul_pos hb hz)
  have e2 : baseWidth * (zoom * 2) = 2 * (baseWidth * zoom) := by ring
  have hraw : ((0 + c / 2) / (baseWidth * zoom)) * (2 * (baseWidth * zoom)) - c / 2 = c / 2 := by
    field_simp
    ring
  rw [handleZoomIn_eq baseWidth c zoom 0 (not_le.mpr h8)]
  dsimp only
  rw [e2, hraw]
  constructor
  · exact max_eq_right (le_min (le_max_left 0 _) (by linarith))
  · exact le_max_left 0 _

/-- Witness for the amended C6 at baseWidth 800, factor 1, container 800. -/
theorem zoom_origin_scroll_witness :
    (handleZoomIn 800 800 ⟨1, 0⟩).scroll =
      min (max 0 (2 * (800 * 1) - 800)) (800 / 2) :=
  (zoom_origin_scroll 800 1 800 (by norm_num) (by norm_num) (by norm_num) (by norm_num)).1

/-- C7 counterexample: with a left-resize session active, a pointer-down
    in the middle of a movable and resizable item is not ignored - the
    state changes, and the session the move handler processes switches
    from the resize to the new drag. -/
theorem single_session_counterexample :
    handleMouseDown 50 100 true true ⟨false, some Edge.left⟩ ≠ ⟨false, some Edge.left⟩ ∧
    handleMouseDown 50 100 true true ⟨false, some Edge.left⟩ = ⟨true, some Edge.left⟩ ∧
    effectiveSession true true ⟨false, some Edge.left⟩ = ActiveSession.resizing Edge.left ∧
    effectiveSession true true ⟨true, some Edge.left⟩ = ActiveSession.dragging := by
  have hmd : handleMouseDown 50 100 true true ⟨false, some Edge.left⟩ =
      ⟨true, some Edge.left⟩ := by
    unfold handleMouseDown
    rw [if_neg (by norm_num), if_neg (by norm_num), if_pos rfl]
  refine ⟨?_, hmd, ?_, ?_⟩
  · rw [hmd]
    simp
  · simp [effectiveSession]
  · simp [effectiveSession]

/-- C7 amended: a qualifying pointer-down away from the edges of a
    movable item while a resize session is active is not ignored: it
    records a drag session alongside the still-recorded resize, and the
    pointer-move handler then processes the drag, which takes precedence
    over the pre-existing resize. -/
theorem drag_overrides_active_resize (x w : ℚ) (hasResize : Bool) (e : Edge)
    (st : ItemInteraction) (hres : st.isResizing = some e)
    (h1 : ¬ x < 8) (h2 : ¬ w - 8 < x) :
    handleMouseDown x w hasResize true st = ⟨true, some e⟩ ∧
    effectiveSession true hasResize (handleMouseDown x w hasResize true st) =
      ActiveSession.dragging := by
  have hmd : handleMouseDown x w hasResize true st = ⟨true, some e⟩ := by
    unfold handleMouseDown
    rw [if_neg (fun hcon => h1 hcon.1), if_neg (fun hcon => h2 hcon.1), if_pos rfl]
    cases st with
    | mk d r =>
      cases hres
      rfl
  rw [hmd]
  refine ⟨rfl, ?_⟩
  simp [effectiveSession]

/-- Witness for the amended C7: pointer-down at x = 50 on a 100 px item
    while a left-resize session is active. -/
theorem drag_overrides_active_resize_witness :
    handleMouseDown 50 100 true true ⟨false, some Edge.left⟩ = ⟨true, some Edge.left⟩ ∧
    effectiveSession true true (handleMouseDown 50 100 true true ⟨false, some Edge.left⟩) =
      ActiveSession.dragging :=
  drag_overrides_active_resize 50 100 true Edge.left ⟨false, some Edge.left⟩ rfl
    (by norm_num) (by norm_num)

/-- C8: a pointer-down within 8 px of either edge of an item without
    resize capability never enters a resize state: from idle it starts a
    drag exactly when the item is movable and otherwise leaves the state
    unchanged, and the transition is total (no error path). -/
theorem edge_without_resize_capability (x w : ℚ) (hasMove : Bool)
    (hedge : x < 8 ∨ w - 8 < x) :
    (handleMouseDown x w false hasMove ⟨false, none⟩).isResizing = none ∧
    handleMouseDown x w false hasMove ⟨false, none⟩ = ⟨hasMove, none⟩ := by
  have hmd : handleMouseDown x w false hasMove ⟨false, none⟩ = ⟨hasMove, none⟩ := by
    unfold handleMouseDown
    rw [if_neg (fun hcon => Bool.false_ne_true hcon.2),
      if_neg (fun hcon => Bool.false_ne_true hcon.2)]
    cases hasMove with
    | false => rw [if_neg (fun hcon => Bool.false_ne_true hcon)]
    | true => rw [if_pos rfl]
  exact ⟨by rw [hmd], hmd⟩

/-- Witness for C8: pointer-down at x = 3 (left edge zone) of a 100 px
    movable, non-resizable item. -/
theorem edge_without_resize_capability_witness :
    (handleMouseDown 3 100 false true ⟨false, none⟩).isResizing = none ∧
    handleMouseDown 3 100 false true ⟨false, none⟩ = ⟨true, none⟩ :=
  edge_without_resize_capability 3 100 true (Or.inl (by norm_num))

/-- C9: for a group id present in the list, scrollToGroup is a no-op when
    the group's extent already lies within the visible window and
    otherwise scrolls to clamp(groupTop - containerHeight/2 +
    groupHeight/2, 0, scrollHeight - containerHeight). -/
theorem scroll_to_group_centering (groupIds : List String) (groupId : String)
    (sticky : Bool) (containerHeight scrollTop scrollHeight : ℚ) (i : ℕ)
    (hfind : groupIds.findIdx? (fun g => g = groupId) = some i) :
    scrollToGroup groupIds groupId sticky containerHeight scrollTop scrollHeight =
      if (i : ℚ) * 60 + (if sticky then 0 else 60) ≥ scrollTop ∧
         (i : ℚ) * 60 + (if sticky then 0 else 60) + 60 ≤ scrollTop + containerHeight
      then none
      else some (clampQ 0 (scrollHeight - containerHeight)
        ((i : ℚ) * 60 + (if sticky then 0 else 60) - containerHeight / 2 + 60 / 2)) := by
  unfold scrollToGroup
  rw [hfind]
  rfl

/-- Witness for C9: group "b" at index 1 of two groups, container 100 px
    at scrollTop 0, content 120 px tall, sticky header. -/
theorem scroll_to_group_centering_witness :
    scrollToGroup ["a", "b"] "b" true 100 0 120 =
      if ((1 : ℕ) : ℚ) * 60 + (if true then 0 else 60) ≥ 0 ∧
         ((1 : ℕ) : ℚ) * 60 + (if true then 0 else 60) + 60 ≤ 0 + 100
      then none
      else some (clampQ 0 (120 - 100)
        (((1 : ℕ) : ℚ) * 60 + (if true then 0 else 60) - 100 / 2 + 60 / 2)) :=
  scroll_to_group_centering ["a", "b"] "b" true 100 0 120 1 (by decide)

/-- C10: for a non-empty group list, whenever the floored row index falls
    outside [0, length) the position resolves to the first group's id,
    which is an existing id. -/
theorem group_from_position_first_fallback (groupIds : List String) (sticky : Bool)
    (y rectTop scrollTop : ℚ) (hne : groupIds ≠ [])
    (hout : ⌊(y - rectTop + scrollTop - (if sticky then 0 else 60)) / 60⌋ < 0 ∨
      (groupIds.length : ℤ) ≤ ⌊(y - rectTop + scrollTop - (if sticky then 0 else 60)) / 60⌋) :
    getGroupFromPosition groupIds sticky y rectTop scrollTop = groupIds.head? ∧
    ∃ g, getGroupFromPosition groupIds sticky y rectTop scrollTop = some g ∧ g ∈ groupIds := by
  have hlookup : (if 0 ≤ ⌊(y - rectTop + scrollTop - (if sticky then 0 else 60)) / 60⌋
      then groupIds.get? (⌊(y - rectTop + scrollTop - (if sticky then 0 else 60)) / 60⌋).toNat
      else none) = none := by
    rcases hout with h | h
    · rw [if_neg (not_le.mpr h)]
    · rw [if_pos (le_trans (Int.natCast_nonneg _) h)]
      apply List.get?_eq_none.mpr
      omega
  have hmain : getGroupFromPosition groupIds sticky y rectTop scrollTop = groupIds.head? := by
    unfold getGroupFromPosition
    dsimp only
    rw [hlookup]
    rfl
  refine ⟨hmain, ?_⟩
  cases groupIds with
  | nil => exact absurd rfl hne
  | cons g gs =>
    exact ⟨g, by rw [hmain]; rfl, List.mem_cons_self g gs⟩

/-- Witness for C10: two groups, pointer above the content (row index -1)
    in non-sticky mode resolves to the first group "a". -/
theorem group_from_position_first_fallback_witness :
    getGroupFromPosition ["a", "b"] false 0 0 0 = (["a", "b"] : List String).head? ∧
    ∃ g, getGroupFromPosition ["a", "b"] false 0 0 0 = some g ∧
      g ∈ (["a", "b"] : List String) :=
  group_from_position_first_fallback ["a", "b"] false 0 0 0 (by simp)
    (Or.inl (by norm_num))
